import Mathlib

/-!
Contact-form request handler (`main.go`).

A shallow embedding of the validation core of `main.go`: the message catalog
`errorMessages`, the lookup `getErrorMessage`, the e-mail check `validateEmail`
and the rule chain `RequestBody.validateResponse`.

Conventions of the embedding.

* A Go `string` holding valid UTF-8 is a Lean `String`; Go's `len(s)` is the number
  of bytes of the UTF-8 encoding, `String.utf8ByteSize`, while `String.length`
  counts Unicode scalar values.
* A Go `map[string]T` literal is an association list searched with `List.lookup`;
  the "comma ok" form `v, exists := m[k]` is the `Option` that `List.lookup` returns,
  and the plain index `m[k]` yields the zero value (`""`) for an absent key.
* A Go `error` is an `Option String`: `nil` is `none`, `errors.New(t)` is `some t`.
* `regexp.MustCompile(p).MatchString(s)` is modelled by a small regular-expression
  type with a derivative matcher; the pattern of `validateEmail` is anchored with
  `^` and `$`, so the whole string has to match.
* An `http.ResponseWriter` is a value threaded through the handlers; a request carries
  its method and the outcome of reading and decoding its body.
-/

namespace ContactForm

/-! ## Data model -/

/-- The Go struct `RequestBody`. -/
structure RequestBody where
  Email : String
  Lang : String
  Message : String
  Name : String
  Subject : String

/-- Go's builtin `len` on a string: the number of bytes. -/
def len (s : String) : Nat := s.utf8ByteSize

/-- The Go type `ErrorMessages = map[string]map[string]string`. -/
abbrev ErrorMessages := List (String × List (String × String))

/-- The package-level catalog `errorMessages`. -/
def errorMessages : ErrorMessages :=
  [ ("DefaulErrorMessage",
      [ ("en", "An error occurred while processing the request!"),
        ("az", "Tələbi işlənən zaman səhv baş verdi!"),
        ("ru", "При обработке запроса произошла ошибка!") ]),
    ("EmptyFields",
      [ ("en", "Please fill in all the fields!"),
        ("az", "Bütün tələb olunan sahələri doldurun!"),
        ("ru", "Заполните все обязательные поля!") ]),
    ("NameTooLong",
      [ ("en", "The number of characters in the «Name» field must be no more than 50!"),
        ("az", "«Ad» sahəsindəki simvolların sayı 50-dən çox olmamalıdır!"),
        ("ru", "Количество символов в поле «Имя» не должно превышать 50!") ]),
    ("EmailFieldIsRequired",
      [ ("en", "The «Email» field is required!"),
        ("az", "«Email» sahəsi tələb olunur!"),
        ("ru", "Поле «Email» обязательно!") ]),
    ("InvalidEmail",
      [ ("en", "Please enter a valid email address!"),
        ("az", "Zəhmət olmasa düzgün bir email ünvanı daxil edin!"),
        ("ru", "Пожалуйста, введите действительный адрес электронной почты!") ]),
    ("SubjectTooLong",
      [ ("en", "The number of characters in the «Subject» field must be no more than 50!"),
        ("az", "«Mövzu» sahəsindəki simvolların sayı 50-dən çox olmamalıdır!"),
        ("ru", "Количество символов в поле «Тема» не должно превышать 50!") ]),
    ("MessageFieldIsRequired",
      [ ("en", "The «Message» field is required!"),
        ("az", "«Mesaj» sahəsi tələb olunur!"),
        ("ru", "Поле «Сообщение» обязательно!") ]),
    ("MessageTooShort",
      [ ("en", "The message must be at least 1 character long!"),
        ("az", "Mesaj ən az 1 simvol uzunluğunda olmalıdır!"),
        ("ru", "Сообщение должно быть длиной не менее 1 символа!") ]) ]

/-- The keys of a catalog, in the order of the literal. -/
def catalogKeys (m : ErrorMessages) : List String := m.map Prod.fst

/-- The function `getErrorMessage(errorType, lang)`. -/
def getErrorMessage (errorType : String) (lang : String) : String :=
  match errorMessages.lookup errorType with
  | some messages =>
    match messages.lookup lang with
    | some message => message
    | none => (messages.lookup "en").getD ""
  | none => "An unknown error occurred!"

/-! ## Regular expressions -/

/-- Regular expressions, the fragment of the RE2 syntax used by `main.go`. -/
inductive Regex where
  | empty : Regex
  | eps : Regex
  | cls : List (Char × Char) → Regex
  | seq : Regex → Regex → Regex
  | alt : Regex → Regex → Regex
  | star : Regex → Regex

namespace Regex

/-- Membership of a character in a bracket expression given by inclusive ranges. -/
def inClass (ranges : List (Char × Char)) (c : Char) : Bool :=
  ranges.any fun r => decide (r.1.val ≤ c.val) && decide (c.val ≤ r.2.val)

/-- A literal character, such as `@` or `\.`. -/
def lit (c : Char) : Regex := cls [(c, c)]

/-- The repetition operator `+`: one or more repetitions. -/
def plus (r : Regex) : Regex := seq r (star r)

/-- The repetition `{2,}`: two or more repetitions. -/
def atLeastTwo (r : Regex) : Regex := seq r (seq r (star r))

/-- Whether the expression matches the empty string. -/
def nullable : Regex → Bool
  | empty => false
  | eps => true
  | cls _ => false
  | seq r q => nullable r && nullable q
  | alt r q => nullable r || nullable q
  | star _ => true

/-- Brzozowski derivative of an expression by one character. -/
def deriv : Regex → Char → Regex
  | empty, _ => empty
  | eps, _ => empty
  | cls rs, c => if inClass rs c then eps else empty
  | seq r q, c =>
    if nullable r then alt (seq (deriv r c) q) (deriv q c) else seq (deriv r c) q
  | alt r q, c => alt (deriv r c) (deriv q c)
  | star r, c => seq (deriv r c) (star r)

/-- Whether the expression matches the whole list of characters. -/
def matchChars : Regex → List Char → Bool
  | r, [] => nullable r
  | r, c :: cs => matchChars (deriv r c) cs

/-- The method `MatchString` for a pattern anchored at both ends. -/
def MatchString (r : Regex) (s : String) : Bool := matchChars r s.data

/-- The words an expression denotes. -/
inductive Matches : Regex → List Char → Prop
  | eps : Matches eps []
  | cls {rs : List (Char × Char)} {c : Char} : inClass rs c = true → Matches (cls rs) [c]
  | seq {r q : Regex} {s t : List Char} :
      Matches r s → Matches q t → Matches (seq r q) (s ++ t)
  | altL {r q : Regex} {s : List Char} : Matches r s → Matches (alt r q) s
  | altR {r q : Regex} {s : List Char} : Matches q s → Matches (alt r q) s
  | starNil {r : Regex} : Matches (star r) []
  | starCons {r : Regex} {s t : List Char} :
      Matches r s → Matches (star r) t → Matches (star r) (s ++ t)

end Regex

/-- The bracket expression `[a-zA-Z0-9._%+-]`. -/
def localClass : List (Char × Char) :=
  [('a', 'z'), ('A', 'Z'), ('0', '9'), ('.', '.'), ('_', '_'), ('%', '%'), ('+', '+'),
    ('-', '-')]

/-- The bracket expression `[a-zA-Z0-9.-]`. -/
def domainClass : List (Char × Char) :=
  [('a', 'z'), ('A', 'Z'), ('0', '9'), ('.', '.'), ('-', '-')]

/-- The bracket expression `[a-zA-Z]`. -/
def letterClass : List (Char × Char) := [('a', 'z'), ('A', 'Z')]

/-- The pattern of `validateEmail`, between its anchors. -/
def emailRegex : Regex :=
  .seq (.plus (.cls localClass))
    (.seq (.lit '@')
      (.seq (.plus (.cls domainClass))
        (.seq (.lit '.') (.atLeastTwo (.cls letterClass)))))

/-- The function `validateEmail(email)`. -/
def validateEmail (email : String) : Bool :=
  let emailLength := len email
  if !emailRegex.MatchString email || emailLength < 7 || emailLength > 50 then
    false
  else
    true

/-- The `switch` of `validateResponse`: the value of `errorType` after it. -/
def selectErrorType (request : RequestBody) : String :=
  if len request.Email == 0 || len request.Message == 0 then "EmptyFields"
  else if len request.Name > 50 then "NameTooLong"
  else if len request.Email == 0 then "EmailFieldIsRequired"
  else if !validateEmail request.Email then "InvalidEmail"
  else if len request.Subject > 0 then "SubjectTooLong"
  else if len request.Message == 0 then "MessageFieldIsRequired"
  else if len request.Message < 1 then "MessageTooShort"
  else ""

/-- The method `RequestBody.validateResponse`. -/
def RequestBody.validateResponse (request : RequestBody) : Bool × Option String :=
  let errorType := selectErrorType request
  if errorType != "" then
    let err := getErrorMessage errorType request.Lang
    (false, some err)
  else
    (true, none)

/-! ## The e-mail check in the words of the specification -/

/-- Spec wording: a character of the local part is a letter, a digit or one of `. _ % + -`. -/
def specLocalChar (c : Char) : Bool :=
  c.isAlpha || c.isDigit || c == '.' || c == '_' || c == '%' || c == '+' || c == '-'

/-- Spec wording: a character of the domain is a letter, a digit, `.` or `-`. -/
def specDomainChar (c : Char) : Bool :=
  c.isAlpha || c.isDigit || c == '.' || c == '-'

/-- Spec wording: the shape `local-part@domain.tld`, with a non-empty local part, a
non-empty domain and a top-level segment of two or more letters. -/
def specEmailShape (e : String) : Prop :=
  ∃ loc dom tld : List Char,
    e.data = loc ++ '@' :: (dom ++ '.' :: tld) ∧
    loc ≠ [] ∧ (∀ c ∈ loc, specLocalChar c = true) ∧
    dom ≠ [] ∧ (∀ c ∈ dom, specDomainChar c = true) ∧
    2 ≤ tld.length ∧ (∀ c ∈ tld, c.isAlpha = true)

/-- Spec wording: the e-mail check, shape and a length between 7 and 50 characters. -/
def specValidEmail (e : String) : Prop :=
  specEmailShape e ∧ 7 ≤ e.length ∧ e.length ≤ 50

/-! ## The validator in the words of the specification -/

/-- Spec wording: the four-rule chain that omits the dead rules: `EmptyFields` if email
or message is empty, otherwise `NameTooLong` if the byte length of name exceeds 50,
otherwise `InvalidEmail` if `validateEmail` is false, otherwise `SubjectTooLong` if the
subject is non-empty, otherwise valid (no kind, the empty string). -/
def specFourRuleChain (request : RequestBody) : String :=
  if request.Email = "" ∨ request.Message = "" then "EmptyFields"
  else if len request.Name > 50 then "NameTooLong"
  else if validateEmail request.Email = false then "InvalidEmail"
  else if request.Subject ≠ "" then "SubjectTooLong"
  else ""

/-- Spec wording: the e-mail check with the length counted in Unicode scalar values. -/
def scalarValidateEmail (email : String) : Bool :=
  let emailLength := email.length
  if !emailRegex.MatchString email || emailLength < 7 || emailLength > 50 then
    false
  else
    true

/-- Spec wording: the seven rules with every length counted in Unicode scalar values. -/
def scalarSelectErrorType (request : RequestBody) : String :=
  if request.Email.length == 0 || request.Message.length == 0 then "EmptyFields"
  else if request.Name.length > 50 then "NameTooLong"
  else if request.Email.length == 0 then "EmailFieldIsRequired"
  else if !scalarValidateEmail request.Email then "InvalidEmail"
  else if request.Subject.length > 0 then "SubjectTooLong"
  else if request.Message.length == 0 then "MessageFieldIsRequired"
  else if request.Message.length < 1 then "MessageTooShort"
  else ""

/-- Spec wording: the three fixed success sentences, for `en`, `az` and `ru`. -/
def successSentences : List String :=
  ["Your message has been sent successfully!", "Mesajınız uğurla göndərildi!",
    "Ваше сообщение успешно отправлено!"]

/-! ## HTTP plumbing

The types and functions of `net/http` that `main.go` uses. A response writer is passed
along as a value: the header map, the status line with the headers as they were when it
was written, and the body written so far. -/

/-- The constant `http.MethodPost`. -/
def MethodPost : String := "POST"

/-- The constant `http.MethodOptions`. -/
def MethodOptions : String := "OPTIONS"

/-- The constant `http.StatusOK`. -/
def StatusOK : Nat := 200

/-- The constant `http.StatusBadRequest`. -/
def StatusBadRequest : Nat := 400

/-- The constant `http.StatusMethodNotAllowed`. -/
def StatusMethodNotAllowed : Nat := 405

/-- What `io.ReadAll(r.Body)` followed by `json.Unmarshal(body, &request)` yields for a
request: the read fails, the decoding fails, or a `RequestBody` is decoded (an absent
key leaves the zero value, the empty string). -/
inductive BodyOutcome where
  | unreadable : BodyOutcome
  | invalidJSON : BodyOutcome
  | decoded : RequestBody → BodyOutcome

/-- The part of `http.Request` that `main.go` reads. -/
structure Request where
  Method : String
  Body : BodyOutcome

/-- The state of an `http.ResponseWriter`. -/
structure ResponseWriter where
  header : List (String × String)
  sent : Option (Nat × List (String × String))
  body : String

/-- What the client receives. -/
structure Response where
  Status : Nat
  Header : List (String × String)
  Body : String

namespace ResponseWriter

/-- The call `w.Header().Set(key, value)`. -/
def Set (w : ResponseWriter) (key value : String) : ResponseWriter :=
  { w with header := (key, value) :: w.header.filter fun kv => kv.1 != key }

/-- The call `w.WriteHeader(code)`; only the first call has an effect. -/
def WriteHeader (w : ResponseWriter) (code : Nat) : ResponseWriter :=
  match w.sent with
  | some _ => w
  | none => { w with sent := some (code, w.header) }

/-- The call `w.Write(b)`; it writes the status 200 first when no status was written. -/
def Write (w : ResponseWriter) (b : String) : ResponseWriter :=
  let w := w.WriteHeader StatusOK
  { w with body := w.body ++ b }

/-- The response once the handler has returned; the server writes the status 200 when
the handler wrote none. -/
def response (w : ResponseWriter) : Response :=
  let w := w.WriteHeader StatusOK
  match w.sent with
  | some (code, header) => ⟨code, header, w.body⟩
  | none => ⟨StatusOK, w.header, w.body⟩

end ResponseWriter

/-- A writer nothing was written to. -/
def freshWriter : ResponseWriter := ⟨[], none, ""⟩

/-- The type `http.Handler`, as the function `ServeHTTP`. -/
abbrev Handler := ResponseWriter → Request → ResponseWriter

/-- The library function `http.Error(w, error, code)`: it sets the content type to plain
text, writes the status and then the message followed by a newline. -/
def httpError (w : ResponseWriter) (error : String) (code : Nat) : ResponseWriter :=
  let w := w.Set "Content-Type" "text/plain; charset=utf-8"
  let w := w.Set "X-Content-Type-Options" "nosniff"
  let w := w.WriteHeader code
  w.Write (error ++ "\n")

/-- The function `CORSHandler(next)`. -/
def CORSHandler (next : Handler) : Handler := fun w r =>
  let w := w.Set "Access-Control-Allow-Origin" "http://localhost:8899"
  let w := w.Set "Access-Control-Allow-Methods" "POST"
  let w := w.Set "Access-Control-Allow-Headers" "Content-Type"
  if r.Method == MethodOptions then
    w.WriteHeader StatusOK
  else
    next w r

/-- The function `handler(w, r)`. -/
def handler : Handler := fun w r =>
  if r.Method == MethodPost then
    match r.Body with
    | .unreadable => httpError w "Unable to read body" StatusBadRequest
    | .invalidJSON => httpError w "Invalid JSON" StatusBadRequest
    | .decoded request =>
      let (isValid, err) := request.validateResponse
      let reponse_message :=
        if !isValid && err.isSome then err.getD ""
        else if request.Lang == "en" then "Your message has been sent successfully!"
        else if request.Lang == "az" then "Mesajınız uğurla göndərildi!"
        else if request.Lang == "ru" then "Ваше сообщение успешно отправлено!"
        else ""
      w.Write reponse_message
  else
    httpError w "Invalid request method" StatusMethodNotAllowed

/-- The exchange of one request with a handler, from a fresh writer. -/
def serve (h : Handler) (r : Request) : Response := (h freshWriter r).response

/-- Spec wording: the header map carries the three CORS headers, the fixed origin,
`POST` as the allowed method and `Content-Type` as the allowed header. -/
def carriesCORS (header : List (String × String)) : Bool :=
  header.lookup "Access-Control-Allow-Origin" == some "http://localhost:8899" &&
    header.lookup "Access-Control-Allow-Methods" == some "POST" &&
    header.lookup "Access-Control-Allow-Headers" == some "Content-Type"

/-! ## Lengths -/

theorem length_le_go (cs : List Char) : cs.length ≤ String.utf8ByteSize.go cs := by
  induction cs with
  | nil => simp [String.utf8ByteSize.go]
  | cons c cs ih =>
    have hc := c.utf8Size_pos
    simp only [String.utf8ByteSize.go, List.length_cons]
    omega

/-- A string has at least as many bytes as it has Unicode scalar values. -/
theorem length_le_len (s : String) : s.length ≤ len s := by
  cases s with
  | mk cs => exact length_le_go cs

/-- Only the empty string has byte length zero. -/
theorem len_eq_zero_iff (s : String) : len s = 0 ↔ s = "" := by
  constructor
  · intro h
    have hl := length_le_len s
    have h0 : s.length = 0 := by omega
    cases s with
    | mk cs =>
      have : cs = [] := List.length_eq_zero.mp h0
      subst this
      rfl
  · intro h
    subst h
    rfl

theorem len_pos_of_ne (s : String) (h : s ≠ "") : 0 < len s :=
  Nat.pos_of_ne_zero fun h0 => h ((len_eq_zero_iff s).mp h0)

theorem selectErrorType_of_empty (request : RequestBody)
    (h : request.Email = "" ∨ request.Message = "") :
    selectErrorType request = "EmptyFields" := by
  have h0 : len request.Email = 0 ∨ len request.Message = 0 :=
    h.imp (fun e => (len_eq_zero_iff _).mpr e) (fun e => (len_eq_zero_iff _).mpr e)
  unfold selectErrorType
  rcases h0 with h0 | h0 <;> simp [h0]

theorem validateResponse_of_select (request : RequestBody) (kind : String) (hk : kind ≠ "")
    (h : selectErrorType request = kind) :
    request.validateResponse = (false, some (getErrorMessage kind request.Lang)) := by
  simp [RequestBody.validateResponse, h, hk]

theorem len_ge_of_validateEmail (email : String) (h : validateEmail email = true) :
    7 ≤ len email ∧ len email ≤ 50 := by
  unfold validateEmail at h
  by_cases h7 : len email < 7
  · simp [h7] at h
  · by_cases h50 : len email > 50
    · simp [h50] at h
    · omega

theorem selectErrorType_of_longName (request : RequestBody)
    (he : request.Email ≠ "") (hm : request.Message ≠ "") (hn : 50 < len request.Name) :
    selectErrorType request = "NameTooLong" := by
  have h1 := len_pos_of_ne _ he
  have h2 := len_pos_of_ne _ hm
  unfold selectErrorType
  simp [Nat.pos_iff_ne_zero.mp h1, Nat.pos_iff_ne_zero.mp h2, hn]

theorem selectErrorType_of_badEmail (request : RequestBody)
    (he : request.Email ≠ "") (hm : request.Message ≠ "") (hn : len request.Name ≤ 50)
    (hv : validateEmail request.Email = false) :
    selectErrorType request = "InvalidEmail" := by
  have h1 := len_pos_of_ne _ he
  have h2 := len_pos_of_ne _ hm
  unfold selectErrorType
  simp [Nat.pos_iff_ne_zero.mp h1, Nat.pos_iff_ne_zero.mp h2, Nat.not_lt.mpr hn, hv]

theorem selectErrorType_of_subject (request : RequestBody)
    (hv : validateEmail request.Email = true) (hm : request.Message ≠ "")
    (hn : len request.Name ≤ 50) (hs : request.Subject ≠ "") :
    selectErrorType request = "SubjectTooLong" := by
  have h1 := (len_ge_of_validateEmail _ hv).1
  have h2 := len_pos_of_ne _ hm
  have h3 := len_pos_of_ne _ hs
  have h1 : len request.Email ≠ 0 := by omega
  unfold selectErrorType
  simp [h1, Nat.pos_iff_ne_zero.mp h2, Nat.not_lt.mpr hn, hv, h3]

theorem selectErrorType_of_valid (request : RequestBody)
    (hv : validateEmail request.Email = true) (hm : request.Message ≠ "")
    (hn : len request.Name ≤ 50) (hs : request.Subject = "") :
    selectErrorType request = "" := by
  have h1 := (len_ge_of_validateEmail _ hv).1
  have h2 := len_pos_of_ne _ hm
  have h3 := (len_eq_zero_iff _).mpr hs
  have h1 : len request.Email ≠ 0 := by omega
  unfold selectErrorType
  simp [h1, Nat.pos_iff_ne_zero.mp h2, Nat.not_lt.mpr hn, hv, h3]

/-! ## The catalog -/

theorem mem_catalogKeys_iff (kind : String) :
    kind ∈ catalogKeys errorMessages ↔
      kind = "DefaulErrorMessage" ∨ kind = "EmptyFields" ∨ kind = "NameTooLong" ∨
      kind = "EmailFieldIsRequired" ∨ kind = "InvalidEmail" ∨ kind = "SubjectTooLong" ∨
      kind = "MessageFieldIsRequired" ∨ kind = "MessageTooShort" := by
  simp [catalogKeys, errorMessages]

theorem lookup_lang_none (lang a b c : String)
    (hen : lang ≠ "en") (haz : lang ≠ "az") (hru : lang ≠ "ru") :
    List.lookup lang [("en", a), ("az", b), ("ru", c)] = none := by
  have e1 : (lang == "en") = false := beq_eq_false_iff_ne.mpr hen
  have e2 : (lang == "az") = false := beq_eq_false_iff_ne.mpr haz
  have e3 : (lang == "ru") = false := beq_eq_false_iff_ne.mpr hru
  simp [List.lookup, e1, e2, e3]

/-- Every catalog entry is a table with exactly the locales `en`, `az`, `ru`. -/
theorem lookup_kind (kind : String) (hk : kind ∈ catalogKeys errorMessages) :
    ∃ a b c, errorMessages.lookup kind = some [("en", a), ("az", b), ("ru", c)] ∧
      a ≠ "" ∧ b ≠ "" ∧ c ≠ "" ∧ a ≠ b ∧ a ≠ c ∧
      a ≠ "An unknown error occurred!" ∧ b ≠ "An unknown error occurred!" ∧
      c ≠ "An unknown error occurred!" := by
  rw [mem_catalogKeys_iff] at hk
  rcases hk with h | h | h | h | h | h | h | h <;> subst h <;>
    exact ⟨_, _, _, rfl, by decide, by decide, by decide, by decide, by decide, by decide,
      by decide, by decide⟩

theorem getErrorMessage_of_lookup (kind lang : String) (messages : List (String × String))
    (h : errorMessages.lookup kind = some messages) :
    getErrorMessage kind lang =
      (messages.lookup lang).getD ((messages.lookup "en").getD "") := by
  unfold getErrorMessage
  rw [h]
  cases hl : messages.lookup lang <;> simp [hl]

/-! ## Correctness of the matcher -/

namespace Regex

theorem matches_empty_iff (w : List Char) : Matches empty w ↔ False :=
  ⟨fun h => (by cases h), False.elim⟩

theorem matches_eps_iff (w : List Char) : Matches eps w ↔ w = [] :=
  ⟨fun h => (by cases h; rfl), fun h => h ▸ Matches.eps⟩

theorem matches_cls_iff (rs : List (Char × Char)) (w : List Char) :
    Matches (cls rs) w ↔ ∃ c, w = [c] ∧ inClass rs c = true := by
  constructor
  · intro h
    cases h with
    | cls hc => exact ⟨_, rfl, hc⟩
  · rintro ⟨c, rfl, hc⟩
    exact Matches.cls hc

theorem matches_seq_iff (r q : Regex) (w : List Char) :
    Matches (seq r q) w ↔ ∃ s t, w = s ++ t ∧ Matches r s ∧ Matches q t := by
  constructor
  · intro h
    cases h with
    | seq h1 h2 => exact ⟨_, _, rfl, h1, h2⟩
  · rintro ⟨s, t, rfl, h1, h2⟩
    exact Matches.seq h1 h2

theorem matches_alt_iff (r q : Regex) (w : List Char) :
    Matches (alt r q) w ↔ Matches r w ∨ Matches q w := by
  constructor
  · intro h
    cases h with
    | altL h1 => exact Or.inl h1
    | altR h1 => exact Or.inr h1
  · rintro (h | h)
    · exact Matches.altL h
    · exact Matches.altR h

/-- A non-empty word of a starred expression starts with a non-empty word of the body. -/
theorem star_cons_inv {r : Regex} {c : Char} {w : List Char}
    (h : Matches (star r) (c :: w)) :
    ∃ s t, w = s ++ t ∧ Matches r (c :: s) ∧ Matches (star r) t := by
  generalize hq : star r = q at h
  generalize hv : c :: w = v at h
  induction h generalizing w with
  | eps => cases hq
  | cls _ => cases hq
  | seq _ _ _ _ => cases hq
  | altL _ _ => cases hq
  | altR _ _ => cases hq
  | starNil => cases hv
  | @starCons r0 s t h1 h2 _ ih2 =>
    cases hq
    cases s with
    | nil => exact ih2 rfl hv
    | cons a s =>
      simp only [List.cons_append, List.cons.injEq] at hv
      obtain ⟨rfl, rfl⟩ := hv
      exact ⟨s, t, rfl, h1, h2⟩

theorem nullable_iff (r : Regex) : nullable r = true ↔ Matches r [] := by
  induction r with
  | empty => simp [nullable, matches_empty_iff]
  | eps => simp [nullable, matches_eps_iff]
  | cls rs => simp [nullable, matches_cls_iff]
  | seq r q ihr ihq =>
    simp only [nullable, Bool.and_eq_true, ihr, ihq, matches_seq_iff]
    constructor
    · rintro ⟨h1, h2⟩
      exact ⟨[], [], rfl, h1, h2⟩
    · rintro ⟨s, t, hst, h1, h2⟩
      have hs : s = [] ∧ t = [] := by simpa using hst.symm
      obtain ⟨rfl, rfl⟩ := hs
      exact ⟨h1, h2⟩
  | alt r q ihr ihq => simp [nullable, ihr, ihq, matches_alt_iff]
  | star r _ => simp [nullable, Matches.starNil]

theorem deriv_iff (r : Regex) (c : Char) (w : List Char) :
    Matches (deriv r c) w ↔ Matches r (c :: w) := by
  induction r generalizing w with
  | empty => simp [deriv, matches_empty_iff]
  | eps => simp [deriv, matches_empty_iff, matches_eps_iff]
  | cls rs =>
    by_cases hc : inClass rs c = true
    · simp only [deriv, hc, if_true, matches_eps_iff, matches_cls_iff]
      constructor
      · rintro rfl
        exact ⟨c, rfl, hc⟩
      · rintro ⟨a, ha, -⟩
        simp only [List.cons.injEq] at ha
        exact ha.2
    · simp only [deriv, hc, matches_empty_iff, matches_cls_iff, false_iff, not_exists,
        not_and, Bool.false_eq_true, if_false]
      rintro a ha
      simp only [List.cons.injEq] at ha
      obtain ⟨rfl, -⟩ := ha
      exact hc
  | seq r q ihr ihq =>
    have key : Matches (seq r q) (c :: w) ↔
        Matches (seq (deriv r c) q) w ∨ (Matches r [] ∧ Matches q (c :: w)) := by
      simp only [matches_seq_iff]
      constructor
      · rintro ⟨s, t, hst, h1, h2⟩
        cases s with
        | nil =>
          simp only [List.nil_append] at hst
          subst hst
          exact Or.inr ⟨h1, h2⟩
        | cons a s =>
          simp only [List.cons_append, List.cons.injEq] at hst
          obtain ⟨rfl, rfl⟩ := hst
          exact Or.inl ⟨s, t, rfl, (ihr s).mpr h1, h2⟩
      · rintro (⟨s, t, rfl, h1, h2⟩ | ⟨h1, h2⟩)
        · exact ⟨c :: s, t, rfl, (ihr s).mp h1, h2⟩
        · exact ⟨[], c :: w, rfl, h1, h2⟩
    rw [key]
    by_cases hn : nullable r = true
    · simp only [deriv, hn, if_true, matches_alt_iff, ihq, ← nullable_iff]
      simp
    · simp only [deriv, hn, ← nullable_iff]
      simp
  | alt r q ihr ihq => simp [deriv, matches_alt_iff, ihr, ihq]
  | star r ih =>
    simp only [deriv, matches_seq_iff]
    constructor
    · rintro ⟨s, t, rfl, h1, h2⟩
      exact Matches.starCons ((ih s).mp h1) h2
    · intro h
      obtain ⟨s, t, rfl, h1, h2⟩ := star_cons_inv h
      exact ⟨s, t, rfl, (ih s).mpr h1, h2⟩

/-- The derivative matcher decides the denotation. -/
theorem matchChars_iff (r : Regex) (w : List Char) :
    matchChars r w = true ↔ Matches r w := by
  induction w generalizing r with
  | nil => simp [matchChars, nullable_iff]
  | cons c w ih => simp [matchChars, ih, deriv_iff]

end Regex

/-! ## The pattern of `validateEmail` -/

theorem inClass_single (a c : Char) : Regex.inClass [(a, a)] c = true ↔ c = a := by
  simp only [Regex.inClass, List.any_cons, List.any_nil, Bool.or_false, Bool.and_eq_true,
    decide_eq_true_eq]
  constructor
  · rintro ⟨h1, h2⟩
    exact Char.ext (UInt32.le_antisymm h2 h1)
  · rintro rfl
    exact ⟨UInt32.le_refl _, UInt32.le_refl _⟩

theorem inClass_cons (r r' : Char × Char) (rs : List (Char × Char)) (c : Char) :
    Regex.inClass (r :: r' :: rs) c = (Regex.inClass [r] c || Regex.inClass (r' :: rs) c) := by
  simp [Regex.inClass]

theorem inClass_lower (c : Char) : Regex.inClass [('a', 'z')] c = c.isLower := by
  simp [Regex.inClass, Char.isLower]

theorem inClass_upper (c : Char) : Regex.inClass [('A', 'Z')] c = c.isUpper := by
  simp [Regex.inClass, Char.isUpper]

theorem inClass_digit (c : Char) : Regex.inClass [('0', '9')] c = c.isDigit := by
  simp [Regex.inClass, Char.isDigit]

theorem inClass_single_beq (a c : Char) : Regex.inClass [(a, a)] c = (c == a) := by
  rw [Bool.eq_iff_iff, inClass_single, beq_iff_eq]

theorem inClass_letterClass (c : Char) : Regex.inClass letterClass c = c.isAlpha := by
  unfold letterClass
  rw [inClass_cons, inClass_lower, inClass_upper, Char.isAlpha, Bool.or_comm]

theorem inClass_localClass (c : Char) : Regex.inClass localClass c = specLocalChar c := by
  unfold localClass specLocalChar
  simp only [inClass_cons, inClass_lower, inClass_upper, inClass_digit, inClass_single_beq,
    Char.isAlpha]
  cases c.isLower <;> cases c.isUpper <;> simp [Bool.or_assoc]

theorem inClass_domainClass (c : Char) : Regex.inClass domainClass c = specDomainChar c := by
  unfold domainClass specDomainChar
  simp only [inClass_cons, inClass_lower, inClass_upper, inClass_digit, inClass_single_beq,
    Char.isAlpha]
  cases c.isLower <;> cases c.isUpper <;> simp [Bool.or_assoc]

namespace Regex

theorem matches_lit_iff (a : Char) (w : List Char) : Matches (lit a) w ↔ w = [a] := by
  unfold lit
  rw [matches_cls_iff]
  constructor
  · rintro ⟨c, rfl, hc⟩
    rw [(inClass_single a c).mp hc]
  · rintro rfl
    exact ⟨a, rfl, (inClass_single a a).mpr rfl⟩

theorem matches_star_cls (rs : List (Char × Char)) (w : List Char) :
    Matches (star (cls rs)) w ↔ ∀ c ∈ w, inClass rs c = true := by
  induction w with
  | nil => simp [Matches.starNil]
  | cons a w ih =>
    constructor
    · intro h
      obtain ⟨s, t, rfl, h1, h2⟩ := star_cons_inv h
      obtain ⟨c, hc, hin⟩ := (matches_cls_iff _ _).mp h1
      simp only [List.cons.injEq] at hc
      obtain ⟨rfl, rfl⟩ := hc
      intro x hx
      simp only [List.nil_append, List.mem_cons] at hx
      rcases hx with rfl | hx
      · exact hin
      · exact ih.mp h2 x hx
    · intro h
      have h1 : Matches (cls rs) [a] := Matches.cls (h a (List.mem_cons_self _ _))
      have h2 : Matches (star (cls rs)) w :=
        ih.mpr fun c hc => h c (List.mem_cons_of_mem _ hc)
      exact Matches.starCons h1 h2

theorem matches_plus_cls (rs : List (Char × Char)) (w : List Char) :
    Matches (plus (cls rs)) w ↔ w ≠ [] ∧ ∀ c ∈ w, inClass rs c = true := by
  unfold plus
  simp only [matches_seq_iff, matches_cls_iff, matches_star_cls]
  constructor
  · rintro ⟨s, t, rfl, ⟨c, rfl, hc⟩, ht⟩
    refine ⟨by simp, ?_⟩
    intro x hx
    simp only [List.singleton_append, List.mem_cons] at hx
    rcases hx with rfl | hx
    · exact hc
    · exact ht x hx
  · rintro ⟨hne, h⟩
    cases w with
    | nil => exact absurd rfl hne
    | cons a w =>
      exact ⟨[a], w, rfl, ⟨a, rfl, h a (List.mem_cons_self _ _)⟩,
        fun c hc => h c (List.mem_cons_of_mem _ hc)⟩

theorem matches_atLeastTwo_cls (rs : List (Char × Char)) (w : List Char) :
    Matches (atLeastTwo (cls rs)) w ↔ 2 ≤ w.length ∧ ∀ c ∈ w, inClass rs c = true := by
  unfold atLeastTwo
  simp only [matches_seq_iff, matches_cls_iff, matches_star_cls]
  constructor
  · rintro ⟨s, t, rfl, ⟨a, rfl, ha⟩, u, v, rfl, ⟨b, rfl, hb⟩, hv⟩
    refine ⟨by simp, ?_⟩
    intro x hx
    simp only [List.singleton_append, List.mem_cons] at hx
    rcases hx with rfl | rfl | hx
    · exact ha
    · exact hb
    · exact hv x hx
  · rintro ⟨hlen, h⟩
    match w, hlen, h with
    | a :: b :: v, _, h =>
      exact ⟨[a], b :: v, rfl, ⟨a, rfl, h a (by simp)⟩, [b], v, rfl,
        ⟨b, rfl, h b (by simp)⟩, fun c hc => h c (by simp [hc])⟩

end Regex

/-- The pattern of `validateEmail` matches exactly the strings of the shape in the spec. -/
theorem matchString_emailRegex_iff (e : String) :
    emailRegex.MatchString e = true ↔ specEmailShape e := by
  unfold Regex.MatchString emailRegex specEmailShape
  rw [Regex.matchChars_iff]
  simp only [Regex.matches_seq_iff, Regex.matches_plus_cls, Regex.matches_lit_iff,
    Regex.matches_atLeastTwo_cls, inClass_localClass, inClass_domainClass,
    inClass_letterClass]
  constructor
  · rintro ⟨loc, t1, h, ⟨hl1, hl2⟩, at1, t2, rfl, rfl, dom, t3, rfl, ⟨hd1, hd2⟩, dot, tld,
      rfl, rfl, ht1, ht2⟩
    exact ⟨loc, dom, tld, by simpa using h, hl1, hl2, hd1, hd2, ht1, ht2⟩
  · rintro ⟨loc, dom, tld, h, hl1, hl2, hd1, hd2, ht1, ht2⟩
    exact ⟨loc, _, h, ⟨hl1, hl2⟩, ['@'], _, rfl, rfl, dom, _, rfl, ⟨hd1, hd2⟩, ['.'], tld,
      rfl, rfl, ht1, ht2⟩

/-! ## E-mail addresses are ASCII -/

theorem utf8Size_of_le (c : Char) (h : c.val ≤ 127) : c.utf8Size = 1 := by
  simp [Char.utf8Size, h]

theorem isAlpha_ascii (c : Char) (h : c.isAlpha = true) : c.val ≤ 127 := by
  simp only [Char.isAlpha, Char.isUpper, Char.isLower, Bool.or_eq_true, Bool.and_eq_true,
    decide_eq_true_eq] at h
  rcases h with ⟨-, h⟩ | ⟨-, h⟩ <;> exact UInt32.le_trans h (by decide)

theorem isDigit_ascii (c : Char) (h : c.isDigit = true) : c.val ≤ 127 := by
  simp only [Char.isDigit, Bool.and_eq_true, decide_eq_true_eq] at h
  exact UInt32.le_trans h.2 (by decide)

theorem specLocalChar_ascii (c : Char) (h : specLocalChar c = true) : c.val ≤ 127 := by
  simp only [specLocalChar, Bool.or_eq_true, beq_iff_eq] at h
  rcases h with (((((h | h) | h) | h) | h) | h) | h
  · exact isAlpha_ascii c h
  · exact isDigit_ascii c h
  all_goals subst h; decide

theorem specDomainChar_ascii (c : Char) (h : specDomainChar c = true) : c.val ≤ 127 := by
  simp only [specDomainChar, Bool.or_eq_true, beq_iff_eq] at h
  rcases h with ((h | h) | h) | h
  · exact isAlpha_ascii c h
  · exact isDigit_ascii c h
  all_goals subst h; decide

theorem go_eq_length_of_ascii (cs : List Char) (h : ∀ c ∈ cs, c.val ≤ 127) :
    String.utf8ByteSize.go cs = cs.length := by
  induction cs with
  | nil => rfl
  | cons c cs ih =>
    simp only [String.utf8ByteSize.go, List.length_cons,
      utf8Size_of_le c (h c (List.mem_cons_self _ _)),
      ih fun x hx => h x (List.mem_cons_of_mem _ hx)]

theorem len_eq_length_of_ascii (s : String) (h : ∀ c ∈ s.data, c.val ≤ 127) :
    len s = s.length := by
  cases s with
  | mk cs => exact go_eq_length_of_ascii cs h

/-- A string of the e-mail shape is ASCII-only, so its byte length is its character count. -/
theorem len_eq_length_of_shape (e : String) (h : specEmailShape e) : len e = e.length := by
  obtain ⟨loc, dom, tld, he, -, hl, -, hd, -, ht⟩ := h
  apply len_eq_length_of_ascii
  intro c hc
  rw [he] at hc
  simp only [List.mem_append, List.mem_cons] at hc
  rcases hc with hc | rfl | hc | rfl | hc
  · exact specLocalChar_ascii c (hl c hc)
  · decide
  · exact specDomainChar_ascii c (hd c hc)
  · decide
  · exact isAlpha_ascii c (ht c hc)

theorem validateEmail_iff (e : String) : validateEmail e = true ↔ specValidEmail e := by
  unfold specValidEmail
  constructor
  · intro h
    have hb := len_ge_of_validateEmail e h
    have hm : emailRegex.MatchString e = true := by
      unfold validateEmail at h
      by_contra hne
      simp [hne] at h
    have hs := (matchString_emailRegex_iff e).mp hm
    rw [← len_eq_length_of_shape e hs]
    exact ⟨hs, hb⟩
  · rintro ⟨hs, h7, h50⟩
    rw [← len_eq_length_of_shape e hs] at h7 h50
    have hm := (matchString_emailRegex_iff e).mpr hs
    unfold validateEmail
    simp [hm, Nat.not_lt.mpr h7, Nat.not_lt.mpr h50]

/-! ## The claims -/

/-- C1: a form whose email is empty or whose message is empty is rejected with the kind
`EmptyFields`, whatever its name, subject and lang are: `validateResponse` returns
`false` and the error text `getErrorMessage "EmptyFields" lang`. -/
theorem emptyFields_rule (request : RequestBody)
    (h : request.Email = "" ∨ request.Message = "") :
    selectErrorType request = "EmptyFields" ∧
      request.validateResponse =
        (false, some (getErrorMessage "EmptyFields" request.Lang)) :=
  ⟨selectErrorType_of_empty request h,
    validateResponse_of_select request _ (by decide) (selectErrorType_of_empty request h)⟩

/-- C1 at the form with an empty email, a 60-byte name and a subject. -/
theorem emptyFields_rule_witness :
    (RequestBody.mk "" "az" "hello"
        "aaaaaaaaaaaaaaaaaaaaaaaaaaaaaaaaaaaaaaaaaaaaaaaaaaaaaaaaaaaa" "Hi").validateResponse =
      (false, some "Bütün tələb olunan sahələri doldurun!") :=
  (emptyFields_rule
    (RequestBody.mk "" "az" "hello"
      "aaaaaaaaaaaaaaaaaaaaaaaaaaaaaaaaaaaaaaaaaaaaaaaaaaaaaaaaaaaa" "Hi") (Or.inl rfl)).2

/-- C2, evaluated at a form the claim calls valid: the name has 40 characters (Unicode
scalar values) but 78 bytes, the email passes `validateEmail`, the message is not empty
and the subject is empty, and yet `validateResponse` rejects it with `NameTooLong`. -/
theorem nameTooLong_counts_bytes :
    "Александра Константиновна Рождественская".length = 40 ∧
      len "Александра Константиновна Рождественская" = 78 ∧
      validateEmail "x@y.com" = true ∧
      selectErrorType
        (RequestBody.mk "x@y.com" "ru" "hi" "Александра Константиновна Рождественская" "") =
        "NameTooLong" ∧
      (RequestBody.mk "x@y.com" "ru" "hi" "Александра Константиновна Рождественская"
        "").validateResponse =
        (false, some "Количество символов в поле «Имя» не должно превышать 50!") := by
  decide

/-- C3 as stated fails: with a non-empty subject, email and message the validator selects
`InvalidEmail` when the email is ill-shaped and `NameTooLong` when the name is longer
than 50 bytes, not `SubjectTooLong`. -/
theorem subjectTooLong_counterexample :
    (RequestBody.mk "not-an-email" "en" "hello" "" "Hi").Subject ≠ "" ∧
      (RequestBody.mk "not-an-email" "en" "hello" "" "Hi").Email ≠ "" ∧
      (RequestBody.mk "not-an-email" "en" "hello" "" "Hi").Message ≠ "" ∧
      selectErrorType (RequestBody.mk "not-an-email" "en" "hello" "" "Hi") = "InvalidEmail" ∧
      selectErrorType (RequestBody.mk "not-an-email" "en" "hello" "" "Hi") ≠
        "SubjectTooLong" ∧
      selectErrorType
        (RequestBody.mk "test@example.com" "en" "hello"
          "aaaaaaaaaaaaaaaaaaaaaaaaaaaaaaaaaaaaaaaaaaaaaaaaaaa" "Hi") = "NameTooLong" := by
  decide

/-- C3, amended: a form with a non-empty subject, an email that passes `validateEmail`
(hence non-empty), a non-empty message and a name of at most 50 bytes is rejected with
the kind `SubjectTooLong`, however short the subject is. -/
theorem subjectTooLong_rule (request : RequestBody)
    (hs : request.Subject ≠ "") (hv : validateEmail request.Email = true)
    (hm : request.Message ≠ "") (hn : len request.Name ≤ 50) :
    selectErrorType request = "SubjectTooLong" ∧
      request.validateResponse =
        (false, some (getErrorMessage "SubjectTooLong" request.Lang)) :=
  ⟨selectErrorType_of_subject request hv hm hn hs,
    validateResponse_of_select request _ (by decide)
      (selectErrorType_of_subject request hv hm hn hs)⟩

/-- C3, amended, at the form with the two-character subject `Hi`. -/
theorem subjectTooLong_rule_witness :
    (RequestBody.mk "test@example.com" "en" "hello" "Ann" "Hi").validateResponse =
      (false,
        some "The number of characters in the «Subject» field must be no more than 50!") :=
  (subjectTooLong_rule (RequestBody.mk "test@example.com" "en" "hello" "Ann" "Hi")
    (by decide) (by decide) (by decide) (by decide)).2

/-- C4: a form with a non-empty email, a non-empty message and a name of more than 50
Unicode scalar values is rejected with the kind `NameTooLong`, whatever the shape of the
email and whatever the subject. -/
theorem nameTooLong_rule (request : RequestBody)
    (he : request.Email ≠ "") (hm : request.Message ≠ "")
    (hn : 50 < request.Name.length) :
    selectErrorType request = "NameTooLong" ∧
      request.validateResponse =
        (false, some (getErrorMessage "NameTooLong" request.Lang)) :=
  have hb : 50 < len request.Name := Nat.lt_of_lt_of_le hn (length_le_len request.Name)
  ⟨selectErrorType_of_longName request he hm hb,
    validateResponse_of_select request _ (by decide)
      (selectErrorType_of_longName request he hm hb)⟩

/-- C4 at a form with a 51-character name, an ill-shaped email and a subject. -/
theorem nameTooLong_rule_witness :
    "aaaaaaaaaaaaaaaaaaaaaaaaaaaaaaaaaaaaaaaaaaaaaaaaaaa".length = 51 ∧
      (RequestBody.mk "not-an-email" "en" "hello"
        "aaaaaaaaaaaaaaaaaaaaaaaaaaaaaaaaaaaaaaaaaaaaaaaaaaa" "Hi").validateResponse =
      (false,
        some "The number of characters in the «Name» field must be no more than 50!") :=
  ⟨by decide,
    (nameTooLong_rule
      (RequestBody.mk "not-an-email" "en" "hello"
        "aaaaaaaaaaaaaaaaaaaaaaaaaaaaaaaaaaaaaaaaaaaaaaaaaaa" "Hi")
      (by decide) (by decide) (by decide)).2⟩

/-- Rule 4 with the name measured as the code measures it: a form with a non-empty
message, a name of at most 50 bytes and a non-empty email that fails `validateEmail` is
rejected with the kind `InvalidEmail`, whatever the subject. -/
theorem invalidEmail_rule (request : RequestBody)
    (hm : request.Message ≠ "") (hn : len request.Name ≤ 50)
    (he : request.Email ≠ "") (hv : validateEmail request.Email = false) :
    selectErrorType request = "InvalidEmail" ∧
      request.validateResponse =
        (false, some (getErrorMessage "InvalidEmail" request.Lang)) :=
  ⟨selectErrorType_of_badEmail request he hm hn hv,
    validateResponse_of_select request _ (by decide)
      (selectErrorType_of_badEmail request he hm hn hv)⟩

/-- Rule 4 at a form with an ill-shaped email, a short ASCII name and a subject. -/
theorem invalidEmail_rule_witness :
    (RequestBody.mk "not-an-email" "ru" "hello" "Ann" "Hi").validateResponse =
      (false, some "Пожалуйста, введите действительный адрес электронной почты!") :=
  (invalidEmail_rule (RequestBody.mk "not-an-email" "ru" "hello" "Ann" "Hi")
    (by decide) (by decide) (by decide) (by decide)).2

/-- C5, evaluated at a form the claim sends to `InvalidEmail`: the message is not empty,
the name has 40 characters (Unicode scalar values, at most 50) but 78 bytes, the email
is non-empty and fails `validateEmail`, and yet `validateResponse` rejects the form with
`NameTooLong` and not with `InvalidEmail`, because rule 2 counts bytes. -/
theorem invalidEmail_preempted_by_byte_count :
    "Александра Константиновна Рождественская".length = 40 ∧
      len "Александра Константиновна Рождественская" = 78 ∧
      (RequestBody.mk "not-an-email" "ru" "hi" "Александра Константиновна Рождественская"
        "").Message ≠ "" ∧
      (RequestBody.mk "not-an-email" "ru" "hi" "Александра Константиновна Рождественская"
        "").Email ≠ "" ∧
      validateEmail "not-an-email" = false ∧
      selectErrorType
        (RequestBody.mk "not-an-email" "ru" "hi" "Александра Константиновна Рождественская"
          "") = "NameTooLong" ∧
      selectErrorType
        (RequestBody.mk "not-an-email" "ru" "hi" "Александра Константиновна Рождественская"
          "") ≠ "InvalidEmail" ∧
      (RequestBody.mk "not-an-email" "ru" "hi" "Александра Константиновна Рождественская"
        "").validateResponse =
        (false, some "Количество символов в поле «Имя» не должно превышать 50!") := by
  decide

/-- C6: `validateEmail e` is true exactly when `e` has the shape `local@domain.tld` of the
specification and a length between 7 and 50; `test@example.com` is accepted,
`not-an-email` is rejected, and `a@b.co`, well shaped but 6 characters long, is
rejected. -/
theorem validateEmail_spec :
    (∀ e : String, validateEmail e = true ↔ specValidEmail e) ∧
      validateEmail "test@example.com" = true ∧
      validateEmail "not-an-email" = false ∧
      (specEmailShape "a@b.co" ∧ "a@b.co".length = 6 ∧ validateEmail "a@b.co" = false) :=
  ⟨validateEmail_iff, by decide, by decide,
    ⟨['a'], ['b'], ['c', 'o'], rfl, by decide, by decide, by decide, by decide, by decide,
      by decide⟩,
    by decide, by decide⟩

/-- C7: for a kind that is a key of `errorMessages` and a locale other than `en`, `az`
and `ru`, `getErrorMessage` returns the `en` entry of that kind. -/
theorem getErrorMessage_fallback_en (kind lang : String)
    (hk : kind ∈ catalogKeys errorMessages)
    (hen : lang ≠ "en") (haz : lang ≠ "az") (hru : lang ≠ "ru") :
    (∃ messages, errorMessages.lookup kind = some messages ∧
      messages.lookup "en" = some (getErrorMessage kind lang)) ∧
      getErrorMessage kind lang = getErrorMessage kind "en" := by
  obtain ⟨a, b, c, h, -⟩ := lookup_kind kind hk
  have hl : getErrorMessage kind lang = a := by
    rw [getErrorMessage_of_lookup kind lang _ h, lookup_lang_none lang a b c hen haz hru]
    rfl
  have he : getErrorMessage kind "en" = a := by
    rw [getErrorMessage_of_lookup kind "en" _ h]
    rfl
  exact ⟨⟨_, h, by rw [hl]; rfl⟩, hl.trans he.symm⟩

/-- C7 at the kind `EmptyFields` and the locale `fr`. -/
theorem getErrorMessage_fallback_en_witness :
    getErrorMessage "EmptyFields" "fr" = getErrorMessage "EmptyFields" "en" ∧
      getErrorMessage "EmptyFields" "fr" = "Please fill in all the fields!" ∧
      getErrorMessage "EmptyFields" "" = "Please fill in all the fields!" ∧
      getErrorMessage "EmptyFields" "EN" = "Please fill in all the fields!" :=
  ⟨(getErrorMessage_fallback_en "EmptyFields" "fr" (by decide) (by decide) (by decide)
      (by decide)).2,
    by decide, by decide, by decide⟩

/-- C8: for a kind that is a key of `errorMessages` and a locale among `en`, `az` and
`ru`, `getErrorMessage` returns the entry of the catalog for that kind and locale; it is
not the generic string, and for `az` and `ru` it is not the English text. -/
theorem getErrorMessage_exact (kind lang : String)
    (hk : kind ∈ catalogKeys errorMessages) (hl : lang ∈ ["en", "az", "ru"]) :
    (∃ messages, errorMessages.lookup kind = some messages ∧
      messages.lookup lang = some (getErrorMessage kind lang)) ∧
      getErrorMessage kind lang ≠ "An unknown error occurred!" ∧
      (lang ≠ "en" → getErrorMessage kind lang ≠ getErrorMessage kind "en") := by
  rw [mem_catalogKeys_iff] at hk
  simp only [List.mem_cons, List.mem_singleton, List.not_mem_nil, or_false] at hl
  rcases hk with h | h | h | h | h | h | h | h <;> subst h <;>
    rcases hl with h | h | h <;> subst h <;>
    exact ⟨⟨_, rfl, rfl⟩, by decide, by decide⟩

/-- C8 at the kind `EmptyFields` and the locale `az`. -/
theorem getErrorMessage_exact_witness :
    getErrorMessage "EmptyFields" "az" ≠ "An unknown error occurred!" ∧
      getErrorMessage "EmptyFields" "az" = "Bütün tələb olunan sahələri doldurun!" :=
  ⟨(getErrorMessage_exact "EmptyFields" "az" (by decide) (by decide)).2.1, by decide⟩

/-- C9: for a string that is not a key of `errorMessages`, `getErrorMessage` returns
`An unknown error occurred!`, whatever the locale. -/
theorem getErrorMessage_unknown_kind (kind lang : String)
    (hk : kind ∉ catalogKeys errorMessages) :
    getErrorMessage kind lang = "An unknown error occurred!" := by
  have hnone : errorMessages.lookup kind = none := by
    rw [List.lookup_eq_none_iff]
    intro p hp
    rw [bne_iff_ne]
    intro hkp
    apply hk
    rw [hkp]
    exact List.mem_map_of_mem Prod.fst hp
  unfold getErrorMessage
  rw [hnone]

/-- C9 at the unknown kind `EmailRequired` and the locale `ru`. -/
theorem getErrorMessage_unknown_kind_witness :
    getErrorMessage "EmailRequired" "ru" = "An unknown error occurred!" :=
  getErrorMessage_unknown_kind "EmailRequired" "ru" (by decide)

theorem selectErrorType_mem (request : RequestBody) :
    selectErrorType request = "" ∨ selectErrorType request ∈ catalogKeys errorMessages := by
  simp only [mem_catalogKeys_iff]
  unfold selectErrorType
  split_ifs <;> simp

/-- C10: the kind selected by `validateResponse` is a key of `errorMessages` (or no kind
is selected); every key has non-empty `en`, `az` and `ru` entries; hence an error text
returned by `validateResponse` is an entry of the catalog, and is neither the generic
fallback `An unknown error occurred!` nor the empty string. -/
theorem validateResponse_error_in_catalog (request : RequestBody) :
    (selectErrorType request = "" ∨ selectErrorType request ∈ catalogKeys errorMessages) ∧
      (∀ kind ∈ catalogKeys errorMessages, ∀ lang ∈ ["en", "az", "ru"],
        ∃ messages text, errorMessages.lookup kind = some messages ∧
          messages.lookup lang = some text ∧ text ≠ "") ∧
      (∀ err, request.validateResponse.2 = some err →
        (∃ messages lang, errorMessages.lookup (selectErrorType request) = some messages ∧
          messages.lookup lang = some err) ∧
        err ≠ "An unknown error occurred!" ∧ err ≠ "") := by
  refine ⟨selectErrorType_mem request, ?_, ?_⟩
  · intro kind hk lang hl
    obtain ⟨a, b, c, h, ha, hb, hc, -⟩ := lookup_kind kind hk
    simp only [List.mem_cons, List.mem_singleton, List.not_mem_nil, or_false] at hl
    rcases hl with rfl | rfl | rfl
    · exact ⟨_, a, h, rfl, ha⟩
    · exact ⟨_, b, h, rfl, hb⟩
    · exact ⟨_, c, h, rfl, hc⟩
  · intro err herr
    have hne : selectErrorType request ≠ "" := by
      intro h0
      simp [RequestBody.validateResponse, h0] at herr
    have hk : selectErrorType request ∈ catalogKeys errorMessages :=
      (selectErrorType_mem request).resolve_left hne
    have hval : err = getErrorMessage (selectErrorType request) request.Lang := by
      simp only [RequestBody.validateResponse, bne_iff_ne, ne_eq, hne, not_false_eq_true,
        if_true, Option.some.injEq] at herr
      exact herr.symm
    obtain ⟨a, b, c, h, ha, hb, hc, -, -, ga, gb, gc⟩ := lookup_kind _ hk
    rw [getErrorMessage_of_lookup _ request.Lang _ h] at hval
    by_cases h1 : request.Lang = "en"
    · have : err = a := by rw [hval, h1]; rfl
      subst this
      exact ⟨⟨_, "en", h, rfl⟩, ga, ha⟩
    · by_cases h2 : request.Lang = "az"
      · have : err = b := by rw [hval, h2]; rfl
        subst this
        exact ⟨⟨_, "az", h, rfl⟩, gb, hb⟩
      · by_cases h3 : request.Lang = "ru"
        · have : err = c := by rw [hval, h3]; rfl
          subst this
          exact ⟨⟨_, "ru", h, rfl⟩, gc, hc⟩
        · have : err = a := by
            rw [hval, lookup_lang_none _ a b c h1 h2 h3]
            rfl
          subst this
          exact ⟨⟨_, "en", h, rfl⟩, ga, ha⟩

/-! ## The rule chain -/

theorem beq_zero_iff_empty (s : String) : (len s == 0) = true ↔ s = "" := by
  rw [beq_iff_eq]
  exact len_eq_zero_iff s

theorem selectErrorType_eq_chain (request : RequestBody) :
    selectErrorType request = specFourRuleChain request := by
  by_cases h1 : request.Email = "" ∨ request.Message = ""
  · rw [selectErrorType_of_empty request h1]
    simp [specFourRuleChain, h1]
  · have he : request.Email ≠ "" := fun h => h1 (Or.inl h)
    have hm : request.Message ≠ "" := fun h => h1 (Or.inr h)
    by_cases h2 : len request.Name > 50
    · rw [selectErrorType_of_longName request he hm h2]
      simp [specFourRuleChain, h1, h2]
    · have hn : len request.Name ≤ 50 := Nat.le_of_not_lt h2
      by_cases h3 : validateEmail request.Email = false
      · rw [selectErrorType_of_badEmail request he hm hn h3]
        simp [specFourRuleChain, h1, h2, h3]
      · have hv : validateEmail request.Email = true := by simpa using h3
        by_cases h4 : request.Subject = ""
        · rw [selectErrorType_of_valid request hv hm hn h4]
          simp [specFourRuleChain, h1, h2, hv, h4]
        · rw [selectErrorType_of_subject request hv hm hn h4]
          simp [specFourRuleChain, h1, h2, hv, h4]

theorem validateResponse_of_none (request : RequestBody) (h : selectErrorType request = "") :
    request.validateResponse = (true, none) := by
  simp [RequestBody.validateResponse, h]

theorem selectErrorType_eq_empty_iff (request : RequestBody) :
    selectErrorType request = "" ↔
      request.Message ≠ "" ∧ len request.Name ≤ 50 ∧ validateEmail request.Email = true ∧
        request.Subject = "" := by
  constructor
  · intro h
    rw [selectErrorType_eq_chain] at h
    unfold specFourRuleChain at h
    split_ifs at h with h1 h2 h3 h4
    all_goals first
      | exact absurd h (by decide)
      | exact ⟨fun hm => h1 (Or.inr hm), Nat.le_of_not_lt h2, by simpa using h3,
          by simpa using h4⟩
  · rintro ⟨hm, hn, hv, hs⟩
    exact selectErrorType_of_valid request hv hm hn hs

theorem validateResponse_fst_iff (request : RequestBody) :
    request.validateResponse.1 = true ↔ selectErrorType request = "" := by
  by_cases h : selectErrorType request = ""
  · simp [RequestBody.validateResponse, h]
  · simp [RequestBody.validateResponse, h]

theorem validateResponse_of_ne (request : RequestBody) (h : selectErrorType request ≠ "") :
    request.validateResponse =
      (false, some (getErrorMessage (selectErrorType request) request.Lang)) :=
  validateResponse_of_select request _ h rfl

/-! ## The texts of the catalog -/

theorem getErrorMessage_other_lang (kind lang : String)
    (hk : kind ∈ catalogKeys errorMessages)
    (h1 : lang ≠ "en") (h2 : lang ≠ "az") (h3 : lang ≠ "ru") :
    getErrorMessage kind lang = getErrorMessage kind "en" := by
  obtain ⟨a, b, c, h, -⟩ := lookup_kind kind hk
  rw [getErrorMessage_of_lookup kind lang _ h, getErrorMessage_of_lookup kind "en" _ h,
    lookup_lang_none lang a b c h1 h2 h3]
  rfl

/-- The text returned for a kind of the catalog is one of the texts of that kind. -/
theorem getErrorMessage_mem (kind lang : String) (hk : kind ∈ catalogKeys errorMessages) :
    ∃ p ∈ errorMessages, p.1 = kind ∧ ∃ x ∈ p.2, x.2 = getErrorMessage kind lang := by
  have hen : ∃ p ∈ errorMessages, p.1 = kind ∧ ∃ x ∈ p.2, x.2 = getErrorMessage kind "en" := by
    rw [mem_catalogKeys_iff] at hk
    rcases hk with h | h | h | h | h | h | h | h <;> subst h <;> decide
  by_cases h1 : lang = "en"
  · subst h1
    exact hen
  · by_cases h2 : lang = "az"
    · subst h2
      rw [mem_catalogKeys_iff] at hk
      rcases hk with h | h | h | h | h | h | h | h <;> subst h <;> decide
    · by_cases h3 : lang = "ru"
      · subst h3
        rw [mem_catalogKeys_iff] at hk
        rcases hk with h | h | h | h | h | h | h | h <;> subst h <;> decide
      · rw [getErrorMessage_other_lang kind lang hk h1 h2 h3]
        exact hen

/-- No text of the catalog appears under two kinds. -/
theorem catalog_texts_distinct :
    ∀ p ∈ errorMessages, ∀ q ∈ errorMessages, ∀ x ∈ p.2, ∀ y ∈ q.2,
      x.2 = y.2 → p.1 = q.1 := by
  decide

/-- No text of the catalog is empty or one of the success sentences. -/
theorem catalog_texts_not_success :
    ∀ p ∈ errorMessages, ∀ x ∈ p.2, x.2 ≠ "" ∧ x.2 ∉ successSentences := by
  decide

theorem getErrorMessage_kind_unique (kind kind' lang lang' : String)
    (hk : kind ∈ catalogKeys errorMessages) (hk' : kind' ∈ catalogKeys errorMessages)
    (h : getErrorMessage kind' lang' = getErrorMessage kind lang) : kind' = kind := by
  obtain ⟨p, hp, rfl, x, hx, hxe⟩ := getErrorMessage_mem kind lang hk
  obtain ⟨q, hq, rfl, y, hy, hye⟩ := getErrorMessage_mem kind' lang' hk'
  exact catalog_texts_distinct q hq p hp y hy x hx (by rw [hye, hxe, h])

theorem getErrorMessage_not_success (kind lang : String)
    (hk : kind ∈ catalogKeys errorMessages) :
    getErrorMessage kind lang ≠ "" ∧ getErrorMessage kind lang ∉ successSentences := by
  obtain ⟨p, hp, -, x, hx, hxe⟩ := getErrorMessage_mem kind lang hk
  rw [← hxe]
  exact catalog_texts_not_success p hp x hx

/-! ## The claims on the rule chain -/

/-- C11: rules 3, 6 and 7 are unreachable: for no form does the validator select
`EmailFieldIsRequired`, `MessageFieldIsRequired` or `MessageTooShort`, and no error text
it returns is a text of one of these kinds, because a form with an empty email or an
empty message is already caught by rule 1, `EmptyFields`. -/
theorem dead_rules_unreachable (request : RequestBody) :
    (selectErrorType request ≠ "EmailFieldIsRequired" ∧
      selectErrorType request ≠ "MessageFieldIsRequired" ∧
      selectErrorType request ≠ "MessageTooShort") ∧
    (∀ kind ∈ ["EmailFieldIsRequired", "MessageFieldIsRequired", "MessageTooShort"],
      ∀ lang, request.validateResponse.2 ≠ some (getErrorMessage kind lang)) ∧
    (request.Email = "" ∨ request.Message = "" →
      selectErrorType request = "EmptyFields") := by
  have hsel : selectErrorType request ≠ "EmailFieldIsRequired" ∧
      selectErrorType request ≠ "MessageFieldIsRequired" ∧
      selectErrorType request ≠ "MessageTooShort" := by
    rw [selectErrorType_eq_chain]
    unfold specFourRuleChain
    split_ifs <;> decide
  refine ⟨hsel, ?_, selectErrorType_of_empty request⟩
  intro kind hkind lang heq
  have hk : kind ∈ catalogKeys errorMessages := by
    simp only [List.mem_cons, List.mem_singleton, List.not_mem_nil, or_false] at hkind
    rcases hkind with rfl | rfl | rfl <;> decide
  by_cases h0 : selectErrorType request = ""
  · rw [validateResponse_of_none request h0] at heq
    exact absurd heq (by simp)
  · rw [validateResponse_of_ne request h0] at heq
    have hs : selectErrorType request ∈ catalogKeys errorMessages :=
      (selectErrorType_mem request).resolve_left h0
    have hkk : kind = selectErrorType request :=
      getErrorMessage_kind_unique _ _ _ _ hs hk (Option.some.inj heq).symm
    rw [← hkk] at hsel
    simp only [List.mem_cons, List.mem_singleton, List.not_mem_nil, or_false] at hkind
    rcases hkind with h | h | h
    · exact hsel.1 h
    · exact hsel.2.1 h
    · exact hsel.2.2 h

/-- C12: `validateResponse` returns either `(true, nil)` or `(false, err)` with `err` the
text of the one kind the switch selected, a key of the catalog, and no other kind of the
catalog has that text; so the test `!isValid && err != nil` of the handler holds exactly
when the form is invalid. -/
theorem validateResponse_outcome (request : RequestBody) :
    ((request.validateResponse = (true, none) ∧ selectErrorType request = "") ∨
      (∃ kind ∈ catalogKeys errorMessages, selectErrorType request = kind ∧
        request.validateResponse = (false, some (getErrorMessage kind request.Lang)) ∧
        ∀ kind' ∈ catalogKeys errorMessages, ∀ lang,
          getErrorMessage kind' lang = getErrorMessage kind request.Lang → kind' = kind)) ∧
    (∀ err, request.validateResponse ≠ (true, some err)) ∧
    request.validateResponse ≠ (false, none) ∧
    ((!request.validateResponse.1 && request.validateResponse.2.isSome) = true ↔
      request.validateResponse.1 = false) := by
  by_cases h0 : selectErrorType request = ""
  · have hv := validateResponse_of_none request h0
    refine ⟨Or.inl ⟨hv, h0⟩, ?_, ?_, ?_⟩
    · intro err
      rw [hv]
      simp
    · rw [hv]
      simp
    · rw [hv]
      simp
  · have hv := validateResponse_of_ne request h0
    have hs : selectErrorType request ∈ catalogKeys errorMessages :=
      (selectErrorType_mem request).resolve_left h0
    refine ⟨Or.inr ⟨_, hs, rfl, hv, ?_⟩, ?_, ?_, ?_⟩
    · intro kind' hk' lang h
      exact getErrorMessage_kind_unique _ _ _ _ hs hk' h
    · intro err
      rw [hv]
      simp
    · rw [hv]
      simp
    · rw [hv]
      simp

/-- C18: the seven-rule switch selects, on every form, what the four-rule chain without
the dead rules selects; and `validateResponse` returns `(true, nil)` exactly when the
message is non-empty, the byte length of the name is at most 50, `validateEmail` accepts
the email and the subject is empty. -/
theorem switch_refines_four_rules (request : RequestBody) :
    selectErrorType request = specFourRuleChain request ∧
    (request.validateResponse = (true, none) ↔
      request.Message ≠ "" ∧ len request.Name ≤ 50 ∧
        validateEmail request.Email = true ∧ request.Subject = "") := by
  refine ⟨selectErrorType_eq_chain request, ?_⟩
  rw [← selectErrorType_eq_empty_iff]
  constructor
  · intro h
    have h1 : request.validateResponse.1 = true := by rw [h]
    exact (validateResponse_fst_iff request).mp h1
  · exact validateResponse_of_none request

/-! ## Bytes and scalar values -/

theorem length_eq_zero_iff (s : String) : s.length = 0 ↔ s = "" := by
  constructor
  · intro h
    cases s with
    | mk cs =>
      have : cs = [] := List.length_eq_zero.mp h
      subst this
      rfl
  · intro h
    subst h
    rfl

theorem len_eq_zero_iff_length (s : String) : len s = 0 ↔ s.length = 0 := by
  rw [len_eq_zero_iff, length_eq_zero_iff]

theorem validateEmail_eq_scalar (e : String) : validateEmail e = scalarValidateEmail e := by
  unfold validateEmail scalarValidateEmail
  by_cases hm : emailRegex.MatchString e = true
  · have hl := len_eq_length_of_shape e ((matchString_emailRegex_iff e).mp hm)
    simp only [hl]
  · simp [hm]

theorem selectErrorType_eq_scalar (request : RequestBody)
    (hn : 50 < len request.Name ↔ 50 < request.Name.length) :
    selectErrorType request = scalarSelectErrorType request := by
  have e1 : (len request.Email == 0) = (request.Email.length == 0) := by
    rw [Bool.eq_iff_iff, beq_iff_eq, beq_iff_eq]
    exact len_eq_zero_iff_length _
  have e2 : (len request.Message == 0) = (request.Message.length == 0) := by
    rw [Bool.eq_iff_iff, beq_iff_eq, beq_iff_eq]
    exact len_eq_zero_iff_length _
  have e3 : (len request.Name > 50) = (request.Name.length > 50) := propext hn
  have e4 : (len request.Subject > 0) = (request.Subject.length > 0) := by
    have := len_eq_zero_iff_length request.Subject
    apply propext
    omega
  have e5 : (len request.Message < 1) = (request.Message.length < 1) := by
    have := len_eq_zero_iff_length request.Message
    apply propext
    omega
  unfold selectErrorType scalarSelectErrorType
  simp only [e1, e2, e3, e4, e5, validateEmail_eq_scalar]

/-- C19: the validator as coded, which measures lengths in bytes, selects the same kind
as the validator that measures every length in Unicode scalar values on every form whose
name is ASCII-only, and on every form other than those whose name has at most 50 scalar
values but more than 50 bytes; the two e-mail checks agree on every string, since an
email matched by the pattern is ASCII-only, and byte length and scalar count vanish
together. -/
theorem byte_validator_eq_scalar_validator (request : RequestBody)
    (h : (∀ c ∈ request.Name.data, c.val ≤ 127) ∨
      ¬ (request.Name.length ≤ 50 ∧ 50 < len request.Name)) :
    selectErrorType request = scalarSelectErrorType request ∧
    (∀ e, validateEmail e = scalarValidateEmail e) ∧
    (∀ e, emailRegex.MatchString e = true →
      (∀ c ∈ e.data, c.val ≤ 127) ∧ len e = e.length) ∧
    (∀ s, len s = 0 ↔ s.length = 0) := by
  refine ⟨?_, validateEmail_eq_scalar, ?_, len_eq_zero_iff_length⟩
  · apply selectErrorType_eq_scalar
    have hle := length_le_len request.Name
    rcases h with h | h
    · rw [len_eq_length_of_ascii _ h]
    · constructor
      · intro hb
        by_contra hs
        exact h ⟨Nat.le_of_not_lt hs, hb⟩
      · intro hs
        omega
  · intro e hm
    have hs := (matchString_emailRegex_iff e).mp hm
    refine ⟨?_, len_eq_length_of_shape e hs⟩
    obtain ⟨loc, dom, tld, he, -, hl, -, hd, -, ht⟩ := hs
    intro c hc
    rw [he] at hc
    simp only [List.mem_append, List.mem_cons] at hc
    rcases hc with hc | rfl | hc | rfl | hc
    · exact specLocalChar_ascii c (hl c hc)
    · decide
    · exact specDomainChar_ascii c (hd c hc)
    · decide
    · exact isAlpha_ascii c (ht c hc)

/-- C19 at a form with a short non-ASCII name, where both validators accept, next to a
form outside the hypothesis, a name of 40 scalar values and 78 bytes, where they differ. -/
theorem byte_validator_eq_scalar_validator_witness :
    (selectErrorType (RequestBody.mk "x@y.com" "az" "salam" "Əli Məmmədov" "") =
        scalarSelectErrorType (RequestBody.mk "x@y.com" "az" "salam" "Əli Məmmədov" "") ∧
      selectErrorType (RequestBody.mk "x@y.com" "az" "salam" "Əli Məmmədov" "") = "") ∧
    (selectErrorType
        (RequestBody.mk "x@y.com" "ru" "hi" "Александра Константиновна Рождественская" "") =
        "NameTooLong" ∧
      scalarSelectErrorType
        (RequestBody.mk "x@y.com" "ru" "hi" "Александра Константиновна Рождественская" "") =
        "") :=
  ⟨⟨(byte_validator_eq_scalar_validator
      (RequestBody.mk "x@y.com" "az" "salam" "Əli Məmmədov" "")
      (Or.inr (by decide))).1, by decide⟩, by decide, by decide⟩

/-! ## The handlers -/

theorem response_Write (w : ResponseWriter) (b : String) (h : w.sent = none) :
    (w.Write b).response = ⟨StatusOK, w.header, w.body ++ b⟩ := by
  cases w with
  | mk header sent body =>
    simp only at h
    subst h
    rfl

theorem response_httpError (w : ResponseWriter) (msg : String) (code : Nat)
    (h : w.sent = none) :
    (httpError w msg code).response =
      ⟨code, ((w.Set "Content-Type" "text/plain; charset=utf-8").Set
        "X-Content-Type-Options" "nosniff").header, w.body ++ (msg ++ "\n")⟩ := by
  cases w with
  | mk header sent body =>
    simp only at h
    subst h
    rfl

theorem handler_not_post (w : ResponseWriter) (r : Request) (hm : r.Method ≠ MethodPost) :
    handler w r = httpError w "Invalid request method" StatusMethodNotAllowed := by
  simp [handler, hm]

theorem handler_invalid (w : ResponseWriter) (r : Request) (form : RequestBody)
    (hm : r.Method = MethodPost) (hb : r.Body = .decoded form)
    (hs : selectErrorType form ≠ "") :
    handler w r = w.Write (getErrorMessage (selectErrorType form) form.Lang) := by
  simp [handler, hm, hb, validateResponse_of_ne form hs]

theorem handler_valid (w : ResponseWriter) (r : Request) (form : RequestBody)
    (hm : r.Method = MethodPost) (hb : r.Body = .decoded form)
    (hs : selectErrorType form = "") :
    handler w r =
      w.Write
        (if form.Lang = "en" then "Your message has been sent successfully!"
        else if form.Lang = "az" then "Mesajınız uğurla göndərildi!"
        else if form.Lang = "ru" then "Ваше сообщение успешно отправлено!"
        else "") := by
  simp [handler, hm, hb, validateResponse_of_none form hs]

theorem serve_handler_invalid (r : Request) (form : RequestBody)
    (hm : r.Method = MethodPost) (hb : r.Body = .decoded form)
    (hs : selectErrorType form ≠ "") :
    serve handler r =
      ⟨StatusOK, [], getErrorMessage (selectErrorType form) form.Lang⟩ := by
  unfold serve
  rw [handler_invalid _ r form hm hb hs, response_Write _ _ rfl]
  simp [freshWriter]

theorem serve_handler_valid (r : Request) (form : RequestBody)
    (hm : r.Method = MethodPost) (hb : r.Body = .decoded form)
    (hs : selectErrorType form = "") :
    serve handler r =
      ⟨StatusOK, [],
        if form.Lang = "en" then "Your message has been sent successfully!"
        else if form.Lang = "az" then "Mesajınız uğurla göndərildi!"
        else if form.Lang = "ru" then "Ваше сообщение успешно отправлено!"
        else ""⟩ := by
  unfold serve
  rw [handler_valid _ r form hm hb hs, response_Write _ _ rfl]
  simp [freshWriter]

/-! ## The claims on the handlers -/

/-- C13: for a POST request whose decoded form passes validation and whose lang is `en`,
`az` or `ru`, the body of the handler's response is the success sentence of that
locale. -/
theorem handler_success_sentence (r : Request) (form : RequestBody)
    (hm : r.Method = MethodPost) (hb : r.Body = .decoded form)
    (hv : form.validateResponse.1 = true) (hl : form.Lang ∈ ["en", "az", "ru"]) :
    (serve handler r).Body ∈ successSentences ∧
    (form.Lang = "en" → (serve handler r).Body = "Your message has been sent successfully!") ∧
    (form.Lang = "az" → (serve handler r).Body = "Mesajınız uğurla göndərildi!") ∧
    (form.Lang = "ru" → (serve handler r).Body = "Ваше сообщение успешно отправлено!") := by
  rw [serve_handler_valid r form hm hb ((validateResponse_fst_iff form).mp hv)]
  simp only [List.mem_cons, List.mem_singleton, List.not_mem_nil, or_false] at hl
  rcases hl with h | h | h <;> rw [h] <;> decide

/-- C13 at the form with email `x@y.com`, message `hi`, lang `ru`, no name, no subject. -/
theorem handler_success_sentence_witness :
    (serve handler (Request.mk "POST" (.decoded (RequestBody.mk "x@y.com" "ru" "hi" "" "")))).Body =
      "Ваше сообщение успешно отправлено!" :=
  (handler_success_sentence
    (Request.mk "POST" (.decoded (RequestBody.mk "x@y.com" "ru" "hi" "" "")))
    (RequestBody.mk "x@y.com" "ru" "hi" "" "") rfl rfl (by decide) (by decide)).2.2.2 rfl

/-- C14: for a POST request whose decoded form fails validation, the handler answers
with status 200 and the body `getErrorMessage kind lang` for the kind the validator
selected, a key of the catalog; for a lang other than `en`, `az`, `ru` the body is the
English text of that kind. -/
theorem handler_failure_text (r : Request) (form : RequestBody)
    (hm : r.Method = MethodPost) (hb : r.Body = .decoded form)
    (hv : form.validateResponse.1 = false) :
    (serve handler r).Status = 200 ∧
    selectErrorType form ∈ catalogKeys errorMessages ∧
    (serve handler r).Body = getErrorMessage (selectErrorType form) form.Lang ∧
    form.validateResponse.2 = some (serve handler r).Body ∧
    (form.Lang ∉ ["en", "az", "ru"] →
      (serve handler r).Body = getErrorMessage (selectErrorType form) "en" ∧
      ∃ messages, errorMessages.lookup (selectErrorType form) = some messages ∧
        messages.lookup "en" = some (serve handler r).Body) := by
  have hs : selectErrorType form ≠ "" := by
    intro h0
    rw [(validateResponse_fst_iff form).mpr h0] at hv
    exact absurd hv (by decide)
  have hk : selectErrorType form ∈ catalogKeys errorMessages :=
    (selectErrorType_mem form).resolve_left hs
  rw [serve_handler_invalid r form hm hb hs, validateResponse_of_ne form hs]
  refine ⟨rfl, hk, rfl, rfl, ?_⟩
  intro hl
  simp only [List.mem_cons, List.mem_singleton, List.not_mem_nil, or_false, not_or] at hl
  have he := getErrorMessage_other_lang _ form.Lang hk hl.1 hl.2.1 hl.2.2
  refine ⟨he, ?_⟩
  obtain ⟨a, b, c, h, -⟩ := lookup_kind _ hk
  refine ⟨_, h, ?_⟩
  simp only
  rw [he, getErrorMessage_of_lookup _ "en" _ h]
  rfl

/-- C14 at a form with an empty message and the unknown lang `fr`. -/
theorem handler_failure_text_witness :
    (serve handler
        (Request.mk "POST" (.decoded (RequestBody.mk "x@y.com" "fr" "" "" "")))).Status = 200 ∧
    (serve handler
        (Request.mk "POST" (.decoded (RequestBody.mk "x@y.com" "fr" "" "" "")))).Body =
      "Please fill in all the fields!" :=
  ⟨(handler_failure_text
      (Request.mk "POST" (.decoded (RequestBody.mk "x@y.com" "fr" "" "" "")))
      (RequestBody.mk "x@y.com" "fr" "" "" "") rfl rfl (by decide)).1,
    by decide⟩

/-- C15: for a POST request whose decoded form passes validation and whose lang is not
`en`, `az` or `ru`, the handler answers with status 200 and an empty body; there is no
fallback to a success sentence. -/
theorem handler_success_unknown_lang (r : Request) (form : RequestBody)
    (hm : r.Method = MethodPost) (hb : r.Body = .decoded form)
    (hv : form.validateResponse.1 = true) (hl : form.Lang ∉ ["en", "az", "ru"]) :
    (serve handler r).Status = 200 ∧ (serve handler r).Body = "" ∧
      (serve handler r).Body ∉ successSentences := by
  rw [serve_handler_valid r form hm hb ((validateResponse_fst_iff form).mp hv)]
  simp only [List.mem_cons, List.mem_singleton, List.not_mem_nil, or_false, not_or] at hl
  simp only [hl.1, hl.2.1, hl.2.2, if_false]
  decide

/-- C15 at a valid form whose lang is absent, decoded as the empty string. -/
theorem handler_success_unknown_lang_witness :
    (serve handler
        (Request.mk "POST" (.decoded (RequestBody.mk "x@y.com" "" "hi" "" "")))).Status = 200 ∧
    (serve handler
        (Request.mk "POST" (.decoded (RequestBody.mk "x@y.com" "" "hi" "" "")))).Body = "" :=
  ⟨(handler_success_unknown_lang
      (Request.mk "POST" (.decoded (RequestBody.mk "x@y.com" "" "hi" "" "")))
      (RequestBody.mk "x@y.com" "" "hi" "" "") rfl rfl (by decide) (by decide)).1,
    (handler_success_unknown_lang
      (Request.mk "POST" (.decoded (RequestBody.mk "x@y.com" "" "hi" "" "")))
      (RequestBody.mk "x@y.com" "" "hi" "" "") rfl rfl (by decide) (by decide)).2.1⟩

/-- C16: for a request whose method is not `POST`, `handler` answers with status 405 and
the plain-text body `Invalid request method`; the response does not depend on the body
of the request, which is neither decoded nor validated. -/
theorem handler_method_not_allowed (r : Request) (hm : r.Method ≠ MethodPost) :
    serve handler r =
      ⟨405, [("X-Content-Type-Options", "nosniff"),
        ("Content-Type", "text/plain; charset=utf-8")], "Invalid request method\n"⟩ ∧
    (∀ w, handler w r = httpError w "Invalid request method" StatusMethodNotAllowed) ∧
    (∀ body, serve handler (Request.mk r.Method body) = serve handler r) := by
  have h1 : ∀ r' : Request, r'.Method ≠ MethodPost → serve handler r' =
      ⟨405, [("X-Content-Type-Options", "nosniff"),
        ("Content-Type", "text/plain; charset=utf-8")], "Invalid request method\n"⟩ := by
    intro r' hm'
    unfold serve
    rw [handler_not_post _ r' hm', response_httpError _ _ _ rfl]
    rfl
  refine ⟨h1 r hm, fun w => handler_not_post w r hm, ?_⟩
  intro body
  rw [h1 r hm, h1 (Request.mk r.Method body) hm]

/-- C16 at a GET request that carries a form. -/
theorem handler_method_not_allowed_witness :
    (serve handler
        (Request.mk "GET" (.decoded (RequestBody.mk "x@y.com" "ru" "hi" "" "")))).Status = 405 ∧
    (serve handler
        (Request.mk "GET" (.decoded (RequestBody.mk "x@y.com" "ru" "hi" "" "")))).Body =
      "Invalid request method\n" :=
  ⟨congrArg Response.Status
      (handler_method_not_allowed
        (Request.mk "GET" (.decoded (RequestBody.mk "x@y.com" "ru" "hi" "" "")))
        (by decide)).1,
    by decide⟩

theorem carriesCORS_Set (w : ResponseWriter) :
    carriesCORS
      (((w.Set "Access-Control-Allow-Origin" "http://localhost:8899").Set
        "Access-Control-Allow-Methods" "POST").Set
        "Access-Control-Allow-Headers" "Content-Type").header = true := by
  simp [carriesCORS, ResponseWriter.Set, List.lookup, List.filter]

theorem CORSHandler_options (next : Handler) (w : ResponseWriter) (r : Request)
    (hm : r.Method = MethodOptions) :
    CORSHandler next w r =
      (((w.Set "Access-Control-Allow-Origin" "http://localhost:8899").Set
        "Access-Control-Allow-Methods" "POST").Set
        "Access-Control-Allow-Headers" "Content-Type").WriteHeader StatusOK := by
  simp [CORSHandler, hm]

theorem CORSHandler_next (next : Handler) (w : ResponseWriter) (r : Request)
    (hm : r.Method ≠ MethodOptions) :
    CORSHandler next w r =
      next (((w.Set "Access-Control-Allow-Origin" "http://localhost:8899").Set
        "Access-Control-Allow-Methods" "POST").Set
        "Access-Control-Allow-Headers" "Content-Type") r := by
  simp [CORSHandler, hm]

theorem serve_CORSHandler_handler_carries (r : Request) :
    carriesCORS (serve (CORSHandler handler) r).Header = true := by
  unfold serve
  by_cases ho : r.Method = MethodOptions
  · rw [CORSHandler_options _ _ _ ho]
    decide
  · rw [CORSHandler_next _ _ _ ho]
    by_cases hp : r.Method = MethodPost
    · cases hb : r.Body with
      | unreadable =>
        simp only [handler, hp, hb, beq_self_eq_true, if_true]
        decide
      | invalidJSON =>
        simp only [handler, hp, hb, beq_self_eq_true, if_true]
        decide
      | decoded form =>
        by_cases hs : selectErrorType form = ""
        · rw [handler_valid _ r form hp hb hs, response_Write _ _ rfl]
          exact carriesCORS_Set freshWriter
        · rw [handler_invalid _ r form hp hb hs, response_Write _ _ rfl]
          exact carriesCORS_Set freshWriter
    · rw [handler_not_post _ r hp]
      decide

/-- C17: for an `OPTIONS` request `CORSHandler next` answers with status 200, an empty
body and the three CORS headers, whatever `next` is, so `next` is not invoked; for every
request it sets the three CORS headers before anything else, handing the writer that
carries them to `next`; and with the handler of `main.go` as `next` the response to
every request of any method carries the three headers. -/
theorem corsHandler_headers (next : Handler) (r : Request) :
    (r.Method = MethodOptions →
      serve (CORSHandler next) r =
        ⟨200, [("Access-Control-Allow-Headers", "Content-Type"),
          ("Access-Control-Allow-Methods", "POST"),
          ("Access-Control-Allow-Origin", "http://localhost:8899")], ""⟩) ∧
    (∀ w : ResponseWriter, ∃ w' : ResponseWriter,
      carriesCORS w'.header = true ∧ w'.sent = w.sent ∧ w'.body = w.body ∧
      CORSHandler next w r =
        if r.Method = MethodOptions then w'.WriteHeader StatusOK else next w' r) ∧
    carriesCORS (serve (CORSHandler handler) r).Header = true := by
  refine ⟨?_, ?_, serve_CORSHandler_handler_carries r⟩
  · intro hm
    unfold serve
    rw [CORSHandler_options _ _ _ hm]
    rfl
  · intro w
    refine ⟨_, carriesCORS_Set w, rfl, rfl, ?_⟩
    by_cases hm : r.Method = MethodOptions
    · rw [CORSHandler_options _ _ _ hm, if_pos hm]
    · rw [CORSHandler_next _ _ _ hm, if_neg hm]

/-- C17 at an `OPTIONS` request, with the handler of `main.go` as `next`. -/
theorem corsHandler_headers_witness :
    serve (CORSHandler handler)
        (Request.mk "OPTIONS" (.decoded (RequestBody.mk "" "" "" "" ""))) =
      ⟨200, [("Access-Control-Allow-Headers", "Content-Type"),
        ("Access-Control-Allow-Methods", "POST"),
        ("Access-Control-Allow-Origin", "http://localhost:8899")], ""⟩ :=
  (corsHandler_headers handler
    (Request.mk "OPTIONS" (.decoded (RequestBody.mk "" "" "" "" "")))).1 rfl

/-- C20: for a POST request with a decoded form the status is 200 either way, and the
body is one of the three success sentences or the empty string exactly when the form
passed validation, because no text of the catalog is empty or a success sentence. -/
theorem body_tells_success (r : Request) (form : RequestBody)
    (hm : r.Method = MethodPost) (hb : r.Body = .decoded form) :
    (serve handler r).Status = 200 ∧
    (((serve handler r).Body ∈ successSentences ∨ (serve handler r).Body = "") ↔
      form.validateResponse.1 = true) ∧
    (∀ p ∈ errorMessages, ∀ x ∈ p.2, x.2 ≠ "" ∧ x.2 ∉ successSentences) := by
  refine ⟨?_, ?_, catalog_texts_not_success⟩
  · by_cases hs : selectErrorType form = ""
    · rw [serve_handler_valid r form hm hb hs]
      rfl
    · rw [serve_handler_invalid r form hm hb hs]
      rfl
  · by_cases hs : selectErrorType form = ""
    · rw [serve_handler_valid r form hm hb hs]
      have hv := (validateResponse_fst_iff form).mpr hs
      simp only [hv, iff_true]
      by_cases h1 : form.Lang = "en"
      · rw [if_pos h1]
        exact Or.inl (by decide)
      · rw [if_neg h1]
        by_cases h2 : form.Lang = "az"
        · rw [if_pos h2]
          exact Or.inl (by decide)
        · rw [if_neg h2]
          by_cases h3 : form.Lang = "ru"
          · rw [if_pos h3]
            exact Or.inl (by decide)
          · rw [if_neg h3]
            exact Or.inr rfl
    · rw [serve_handler_invalid r form hm hb hs]
      have hk : selectErrorType form ∈ catalogKeys errorMessages :=
        (selectErrorType_mem form).resolve_left hs
      have hn := getErrorMessage_not_success (selectErrorType form) form.Lang hk
      have hv : form.validateResponse.1 = false := by
        rw [validateResponse_of_ne form hs]
      constructor
      · rintro (h | h)
        · exact absurd h hn.2
        · exact absurd h hn.1
      · intro h
        rw [hv] at h
        exact absurd h (by decide)

/-- C20 at a valid form with an unknown lang, whose body is empty, and at an invalid one. -/
theorem body_tells_success_witness :
    (serve handler
        (Request.mk "POST" (.decoded (RequestBody.mk "x@y.com" "fr" "hi" "" "")))).Body = "" ∧
    (RequestBody.mk "x@y.com" "fr" "hi" "" "").validateResponse.1 = true ∧
    (serve handler
        (Request.mk "POST" (.decoded (RequestBody.mk "x@y.com" "fr" "hi" "" "Hi")))).Body =
      "The number of characters in the «Subject» field must be no more than 50!" ∧
    (RequestBody.mk "x@y.com" "fr" "hi" "" "Hi").validateResponse.1 = false :=
  ⟨by decide,
    (body_tells_success
      (Request.mk "POST" (.decoded (RequestBody.mk "x@y.com" "fr" "hi" "" "")))
      (RequestBody.mk "x@y.com" "fr" "hi" "" "") rfl rfl).2.1.mp (Or.inr (by decide)),
    by decide, by decide⟩

end ContactForm
